import Mathlib

/-!
Verification development for the snjs client core: a shallow embedding of
the payload model (src/lib/protocol/payloads/pure_payload.ts), the protocol
manager (src/lib/protocol/protocolManager.js), the account sync operation
(src/lib/services/sync/account/operation.js) and the queue/integrity parts of
the sync manager (src/lib/services/sync/sync_manager.js), together with
theorems settling the frozen claims about them.

Conventions: JavaScript dates are modelled as integer millisecond timestamps;
optional / possibly-undefined values are Option; functions that can throw
return Except String. External crypto (SHA-256, AES, base64, JSON encoding)
is out of scope per the specification and is passed in as opaque function
parameters.
-/

deriving instance DecidableEq for Except

/-- JavaScript Date modelled as an integer count of milliseconds. -/
def JsDate := Int

deriving instance DecidableEq, Repr for JsDate

instance : OfNat JsDate n := ⟨(n : Int)⟩

/-- Embedding of the JavaScript string method startsWith used by the payload
constructor, defined over the character list of the string. -/
def strStartsWith (s p : String) : Bool := p.data.isPrefixOf s.data

/-- Embedding of the JavaScript substring(0, n) used to read the 3-character
protocol version tag off a content string. -/
def strTake (s : String) (n : Nat) : String := ⟨s.data.take n⟩

/-- PROTOCOL_VERSION_BASE_64_DECRYPTED, the reserved version tag for
base64-decrypted content strings. -/
def versionBase64Decrypted : String := "000"

/-- PROTOCOL_VERSION_LENGTH. -/
def versionLength : Nat := 3

/-- An entry of the references array of a decrypted item content object. -/
structure RefItem where
  uuid : String
  content_type : String
deriving DecidableEq, Repr

/-- A decrypted bare-object item content. The version field carries the
3-character protocol tag when present. -/
structure ItemContent where
  version : Option String := none
  references : Option (List RefItem) := none
  itemData : String := ""
deriving DecidableEq, Repr

/-- Modelled from the spec: FillItemContent (imported by pure_payload.ts from
a module that is not part of the sources) normalizes a bare content object,
filling a default empty references array; per section 3 a DecryptedBareObject
content has well-formed references. It does not touch the version field. -/
def FillItemContent (c : ItemContent) : ItemContent :=
  { c with references := some (c.references.getD []) }

/-- The content slot of a payload: either a string (encrypted or
base64-decrypted) or a decrypted bare object. -/
inductive PayloadContentValue where
  | str (s : String)
  | obj (o : ItemContent)
deriving DecidableEq, Repr

/-- PayloadFormat from payloads/formats. -/
inductive PayloadFormat where
  | EncryptedString
  | DecryptedBareObject
  | DecryptedBase64String
  | Deleted
deriving DecidableEq, Repr

/-- PayloadSource from payloads/sources. -/
inductive PayloadSource where
  | Constructor
  | LocalRetrieved
  | LocalSaved
  | RemoteRetrieved
  | RemoteSaved
  | RemoteConflict
  | LocalDirtied
  | ComponentRetrieved
  | FileImport
deriving DecidableEq, Repr

/-- PayloadField from payloads/fields: the names of the slots a payload class
may carry. -/
inductive PayloadField where
  | Uuid
  | ContentType
  | Content
  | EncItemKey
  | ItemsKeyId
  | Deleted
  | CreatedAt
  | UpdatedAt
  | Dirty
  | DirtiedDate
  | ErrorDecrypting
  | ErrorDecryptingChanged
  | WaitingForKey
  | LastSyncBegan
  | LastSyncEnd
  | Legacy003AuthHash
deriving DecidableEq, Repr

/-- RawPayload: the loosely-typed input object handed to the PurePayload
constructor; every slot may be absent. -/
structure RawPayload where
  uuid : Option String := none
  content_type : Option String := none
  content : Option PayloadContentValue := none
  deleted : Option Bool := none
  items_key_id : Option String := none
  enc_item_key : Option String := none
  created_at : Option JsDate := none
  updated_at : Option JsDate := none
  dirtiedDate : Option JsDate := none
  dirty : Option Bool := none
  errorDecrypting : Option Bool := none
  waitingForKey : Option Bool := none
  errorDecryptingValueChanged : Option Bool := none
  lastSyncBegan : Option JsDate := none
  lastSyncEnd : Option JsDate := none
  auth_hash : Option String := none
deriving DecidableEq, Repr

/-- PurePayload: the immutable constructed payload record. In the embedding
immutability is structural: every record is a value and all updates are
functional derivations. -/
structure PurePayload where
  fields : List PayloadField
  source : PayloadSource
  uuid : Option String
  content_type : Option String
  content : Option PayloadContentValue
  deleted : Option Bool
  items_key_id : Option String
  enc_item_key : Option String
  created_at : Option JsDate
  updated_at : Option JsDate
  dirtiedDate : Option JsDate
  dirty : Option Bool
  errorDecrypting : Option Bool
  waitingForKey : Option Bool
  errorDecryptingValueChanged : Option Bool
  lastSyncBegan : Option JsDate
  lastSyncEnd : Option JsDate
  auth_hash : Option String
  format : PayloadFormat
  version : Option String
deriving DecidableEq, Repr

/-- Content normalization performed by the PurePayload constructor: a truthy
check drops an empty string (falsy in JavaScript), and a bare object is passed
through FillItemContent. -/
def normalizeContent : Option PayloadContentValue → Option PayloadContentValue
  | some (.str s) => if s = "" then none else some (.str s)
  | some (.obj o) => some (.obj (FillItemContent o))
  | none => none

/-- Format derivation of the PurePayload constructor from the (already
normalized) content slot. -/
def formatForContent : Option PayloadContentValue → PayloadFormat
  | some (.str s) =>
    if strStartsWith s versionBase64Decrypted then .DecryptedBase64String
    else .EncryptedString
  | some (.obj _) => .DecryptedBareObject
  | none => .Deleted

/-- Version derivation of the PurePayload constructor from the (already
normalized) content slot. -/
def versionForContent : Option PayloadContentValue → Option String
  | some (.str s) => some (strTake s versionLength)
  | some (.obj o) => o.version
  | none => none

/-- Object.keys of a raw payload, in declaration order: the default fields
list when none is supplied to the constructor. -/
def rawFields (r : RawPayload) : List PayloadField :=
  (if r.uuid.isSome then [PayloadField.Uuid] else []) ++
  (if r.content_type.isSome then [PayloadField.ContentType] else []) ++
  (if r.content.isSome then [PayloadField.Content] else []) ++
  (if r.deleted.isSome then [PayloadField.Deleted] else []) ++
  (if r.items_key_id.isSome then [PayloadField.ItemsKeyId] else []) ++
  (if r.enc_item_key.isSome then [PayloadField.EncItemKey] else []) ++
  (if r.created_at.isSome then [PayloadField.CreatedAt] else []) ++
  (if r.updated_at.isSome then [PayloadField.UpdatedAt] else []) ++
  (if r.dirtiedDate.isSome then [PayloadField.DirtiedDate] else []) ++
  (if r.dirty.isSome then [PayloadField.Dirty] else []) ++
  (if r.errorDecrypting.isSome then [PayloadField.ErrorDecrypting] else []) ++
  (if r.waitingForKey.isSome then [PayloadField.WaitingForKey] else []) ++
  (if r.errorDecryptingValueChanged.isSome then [PayloadField.ErrorDecryptingChanged] else []) ++
  (if r.lastSyncBegan.isSome then [PayloadField.LastSyncBegan] else []) ++
  (if r.lastSyncEnd.isSome then [PayloadField.LastSyncEnd] else []) ++
  (if r.auth_hash.isSome then [PayloadField.Legacy003AuthHash] else [])

/-- JavaScript truthiness of the uuid slot: undefined and the empty string are
falsy. -/
def uuidTruthy : Option String → Bool
  | none => false
  | some s => !(s == "")

namespace PurePayload

/-- Embedding of the PurePayload constructor (pure_payload.ts, constructor).
The now argument supplies the construction-time clock value used by the
created_at fallback. The error case embeds the thrown Error for a falsy uuid
whose fields list contains Uuid. -/
def construct (rawPayload : RawPayload) (fieldsArg : Option (List PayloadField))
    (sourceArg : Option PayloadSource) (now : JsDate) : Except String PurePayload :=
  let fields := fieldsArg.getD (rawFields rawPayload)
  let source := sourceArg.getD .Constructor
  if !(uuidTruthy rawPayload.uuid) && fields.contains PayloadField.Uuid then
    .error "uuid is null, yet this payloads fields indicate it shouldnt be."
  else
    let content := normalizeContent rawPayload.content
    .ok {
      fields := fields
      source := source
      uuid := rawPayload.uuid
      content_type := rawPayload.content_type
      content := content
      deleted := rawPayload.deleted
      items_key_id := rawPayload.items_key_id
      enc_item_key := rawPayload.enc_item_key
      created_at := some (rawPayload.created_at.getD now)
      updated_at := some (rawPayload.updated_at.getD 0)
      dirtiedDate := rawPayload.dirtiedDate
      dirty := rawPayload.dirty
      errorDecrypting := rawPayload.errorDecrypting
      waitingForKey := rawPayload.waitingForKey
      errorDecryptingValueChanged := rawPayload.errorDecryptingValueChanged
      lastSyncBegan := rawPayload.lastSyncBegan
      lastSyncEnd := rawPayload.lastSyncEnd
      auth_hash := rawPayload.auth_hash
      format := formatForContent content
      version := versionForContent content
    }

end PurePayload

/-- A payload slot value as observed through indexed access (the expression
this[field] in pure_payload.ts). -/
inductive PayloadValue where
  | vStr (s : String)
  | vBool (b : Bool)
  | vDate (d : JsDate)
  | vContent (c : PayloadContentValue)
deriving DecidableEq, Repr

namespace PurePayload

/-- Indexed access this[field]: none models an undefined slot. -/
def getField (p : PurePayload) : PayloadField → Option PayloadValue
  | .Uuid => p.uuid.map .vStr
  | .ContentType => p.content_type.map .vStr
  | .Content => p.content.map .vContent
  | .EncItemKey => p.enc_item_key.map .vStr
  | .ItemsKeyId => p.items_key_id.map .vStr
  | .Deleted => p.deleted.map .vBool
  | .CreatedAt => p.created_at.map .vDate
  | .UpdatedAt => p.updated_at.map .vDate
  | .Dirty => p.dirty.map .vBool
  | .DirtiedDate => p.dirtiedDate.map .vDate
  | .ErrorDecrypting => p.errorDecrypting.map .vBool
  | .ErrorDecryptingChanged => p.errorDecryptingValueChanged.map .vBool
  | .WaitingForKey => p.waitingForKey.map .vBool
  | .LastSyncBegan => p.lastSyncBegan.map .vDate
  | .LastSyncEnd => p.lastSyncEnd.map .vDate
  | .Legacy003AuthHash => p.auth_hash.map .vStr

/-- The optionalFields list of ejected(): fields omitted from the wire
projection when their value is null or undefined. -/
def optionalFields : List PayloadField :=
  [PayloadField.Legacy003AuthHash, PayloadField.Deleted]

/-- The nonRequiredFields list of ejected(): the non-persistable metadata
fields always excluded from the wire projection. -/
def nonRequiredFields : List PayloadField :=
  [PayloadField.DirtiedDate,
   PayloadField.ErrorDecrypting,
   PayloadField.ErrorDecryptingChanged,
   PayloadField.WaitingForKey,
   PayloadField.LastSyncBegan,
   PayloadField.LastSyncEnd]

/-- The loop body of ejected() over the fields list: skip the non-persistable
fields, skip optional fields whose value is null or undefined, and copy every
remaining field with its value. -/
def ejectedLoop (p : PurePayload) : List PayloadField → List (PayloadField × Option PayloadValue)
  | [] => []
  | f :: rest =>
    if nonRequiredFields.contains f then ejectedLoop p rest
    else if (p.getField f).isNone && optionalFields.contains f then ejectedLoop p rest
    else (f, p.getField f) :: ejectedLoop p rest

/-- Embedding of PurePayload.ejected() (pure_payload.ts): the wire projection
of a payload, represented as the association list of emitted slots in
iteration order. -/
def ejected (p : PurePayload) : List (PayloadField × Option PayloadValue) :=
  ejectedLoop p p.fields

/-- Embedding of the discardable getter: deleted and not dirty. -/
def discardable (p : PurePayload) : Bool :=
  p.deleted.getD false && !(p.dirty.getD false)

end PurePayload

/-- An override record for payload derivation: an outer some marks a slot the
override sets (possibly to undefined). Only the slots that the embedded code
paths actually override are carried. -/
structure PayloadOverride where
  content : Option (Option PayloadContentValue) := none
  enc_item_key : Option (Option String) := none
  items_key_id : Option (Option String) := none
  errorDecrypting : Option Bool := none
  waitingForKey : Option Bool := none
  errorDecryptingValueChanged : Option Bool := none
deriving DecidableEq, Repr

/-- The fields named by an override record, used for the union of field sets
on a derived payload. -/
def overrideKeys (o : PayloadOverride) : List PayloadField :=
  (if o.content.isSome then [PayloadField.Content] else []) ++
  (if o.enc_item_key.isSome then [PayloadField.EncItemKey] else []) ++
  (if o.items_key_id.isSome then [PayloadField.ItemsKeyId] else []) ++
  (if o.errorDecrypting.isSome then [PayloadField.ErrorDecrypting] else []) ++
  (if o.waitingForKey.isSome then [PayloadField.WaitingForKey] else []) ++
  (if o.errorDecryptingValueChanged.isSome then [PayloadField.ErrorDecryptingChanged] else [])

/-- Modelled from the spec: CreatePayloadFromAnyObject({object, override})
(payloads/generator, not part of the sources) derives a new payload from a
base payload and an override; per section 9 the result's fields set is the
union, override slots win, and the result is re-normalized by the PurePayload
constructor (content truthiness, format and version re-derivation). Date
slots are carried over from the base payload, which for constructed payloads
always carries them (see the construction-time fallbacks). -/
def payloadWithOverride (p : PurePayload) (o : PayloadOverride) : PurePayload :=
  let content := normalizeContent (o.content.getD p.content)
  { p with
    fields := p.fields ++ (overrideKeys o).filter (fun f => !(p.fields.contains f))
    content := content
    enc_item_key := o.enc_item_key.getD p.enc_item_key
    items_key_id := o.items_key_id.getD p.items_key_id
    errorDecrypting := match o.errorDecrypting with
      | some b => some b
      | none => p.errorDecrypting
    waitingForKey := match o.waitingForKey with
      | some b => some b
      | none => p.waitingForKey
    errorDecryptingValueChanged := match o.errorDecryptingValueChanged with
      | some b => some b
      | none => p.errorDecryptingValueChanged
    format := formatForContent content
    version := versionForContent content }

/-- EncryptionIntent constants from protocol/intents. -/
inductive EncryptionIntent where
  | Sync
  | LocalStoragePreferEncrypted
  | LocalStorageDecrypted
  | LocalStorageEncrypted
  | FileEncrypted
  | FileDecrypted
deriving DecidableEq, Repr

/-- Modelled from the spec: intentRequiresEncryption (protocol/intents, not
part of the sources) is true for Sync, LocalStorageEncrypted, FileEncrypted,
LocalStoragePreferEncrypted; false otherwise (section 4.2). -/
def intentRequiresEncryption : EncryptionIntent → Bool
  | .Sync => true
  | .LocalStorageEncrypted => true
  | .FileEncrypted => true
  | .LocalStoragePreferEncrypted => true
  | _ => false

/-- Modelled from the spec: isDecryptedIntent (protocol/intents, not part of
the sources) holds for the two intents named Decrypted, which per the intent
table of section 4.2 never encrypt. -/
def isDecryptedIntent : EncryptionIntent → Bool
  | .LocalStorageDecrypted => true
  | .FileDecrypted => true
  | _ => false

/-- A root key or items-key as consumed by the protocol manager: the protocol
version it was created under, its uuid (items-keys), and opaque key
material. -/
structure EncryptionKey where
  version : String
  uuid : Option String := none
  keyMaterial : String := ""
deriving DecidableEq, Repr

/-- External crypto and encoding collaborators (out of scope per section 1),
passed in as opaque functions. -/
structure CryptoModel where
  sha256 : String → String
  base64 : String → String
  encryptBlob : String → String
  jsonEncode : Option PayloadContentValue → String

/-- PROTOCOL_VERSION_004, the latest version (protocolManager.latestVersion). -/
def latestVersion : String := "004"

namespace SNProtocolManager

/-- Embedding of SNProtocolManager.payloadContentFormatForIntent
(protocolManager.js lines 194-221). An ok none result models the JavaScript
fall-through that returns undefined (no key, an intent that is neither one of
the three decrypted-storage intents nor Sync); the error models the thrown
string for a key combined with a decrypted intent. -/
def payloadContentFormatForIntent (key : Option EncryptionKey)
    (intent : EncryptionIntent) : Except String (Option PayloadFormat) :=
  match key with
  | none =>
    if intent = .LocalStorageDecrypted ∨ intent = .LocalStoragePreferEncrypted ∨
        intent = .FileDecrypted then
      .ok (some .DecryptedBareObject)
    else if intent = .Sync then
      .ok (some .DecryptedBase64String)
    else
      .ok none
  | some _ =>
    if intent = .Sync ∨ intent = .LocalStorageEncrypted ∨
        intent = .FileEncrypted ∨ intent = .LocalStoragePreferEncrypted then
      .ok (some .EncryptedString)
    else
      .error "Unhandled case in protocolManager.payloadContentFormat."

/-- Modelled from the spec: the version operator generateEncryptionParameters
(protocol/versions, not part of the sources) returns the encrypted projection
of a payload for the requested format (sections 4.1 and 6): a bare object
passes the content through; a base64 string is the 000 tag followed by the
base64 of the JSON content; an encrypted string is the operator's version tag
followed by a colon-separated encrypted blob, with the wrapped item key and
the id of the items-key used. The error branch models the crash of the
encrypted path when no key is present (unreachable through the manager). -/
def generateEncryptionParameters (crypto : CryptoModel) (version : String)
    (p : PurePayload) (key : Option EncryptionKey)
    (format : Option PayloadFormat) : Except String PayloadOverride :=
  match format with
  | some .DecryptedBareObject => .ok { content := some p.content }
  | some .DecryptedBase64String =>
    .ok { content := some (some (.str
      (versionBase64Decrypted ++ crypto.base64 (crypto.jsonEncode p.content)))) }
  | _ =>
    match key with
    | none => .error "Cannot generate encrypted parameters with no key."
    | some k =>
      .ok { content := some (some (.str
              (version ++ ":" ++ crypto.encryptBlob (crypto.jsonEncode p.content))))
            enc_item_key := some (some (version ++ ":" ++ crypto.encryptBlob k.keyMaterial))
            items_key_id := some k.uuid }

/-- Embedding of SNProtocolManager.payloadByEncryptingPayload
(protocolManager.js lines 229-248). The lookupKey argument stands for the
result of keyManager.keyToUseForEncryptionOfPayload, consulted only when no
key is supplied and the intent is not a decrypted intent. -/
def payloadByEncryptingPayload (crypto : CryptoModel)
    (lookupKey : Option EncryptionKey) (p : PurePayload)
    (keyArg : Option EncryptionKey) (intent : EncryptionIntent) :
    Except String PurePayload :=
  let key := if keyArg.isNone && !(isDecryptedIntent intent) then lookupKey else keyArg
  if key.isNone && intentRequiresEncryption intent then
    .error "Attempting to generate encrypted payload with no key."
  else do
    let version := match key with
      | some k => k.version
      | none => latestVersion
    let format ← payloadContentFormatForIntent key intent
    let encryptionParameters ← generateEncryptionParameters crypto version p key format
    .ok (payloadWithOverride p encryptionParameters)

/-- Embedding of SNProtocolManager.payloadByDecryptingPayload
(protocolManager.js lines 255-280). The lookupKey argument stands for the
result of keyManager.keyToUseForDecryptionOfPayload; operatorDecrypt stands
for generateDecryptedParameters of the version operator selected for the
payload, which may throw (for example for an unknown version tag). -/
def payloadByDecryptingPayload
    (operatorDecrypt : PurePayload → EncryptionKey → Except String PayloadOverride)
    (lookupKey : Option EncryptionKey) (p : PurePayload)
    (keyArg : Option EncryptionKey) : Except String PurePayload :=
  let key := if keyArg.isNone then lookupKey else keyArg
  match key with
  | none =>
    .ok (payloadWithOverride p { waitingForKey := some true, errorDecrypting := some true })
  | some k => do
    let decryptedParameters ← operatorDecrypt p k
    .ok (payloadWithOverride p decryptedParameters)

/-- The error-marked payload pushed by the catch branch of
payloadsByDecryptingPayloads: errorDecrypting set, and
errorDecryptingValueChanged set to the negation of the input's
errorDecrypting (JavaScript negation of a possibly-undefined slot). -/
def markErrorDecrypting (p : PurePayload) : PurePayload :=
  payloadWithOverride p
    { errorDecrypting := some true
      errorDecryptingValueChanged := some (!(p.errorDecrypting.getD false)) }

/-- Condition under which the bulk-decrypt loop passes a payload through
untouched because it is a contentless tombstone: deleted with null or
undefined content. -/
def isContentlessDeleted (p : PurePayload) : Bool :=
  (p.deleted == some true) && p.content.isNone

/-- Condition under which the bulk-decrypt loop attempts decryption: the
content slot holds a string. -/
def contentIsString (p : PurePayload) : Bool :=
  match p.content with
  | some (.str _) => true
  | _ => false

/-- Embedding of SNProtocolManager.payloadsByDecryptingPayloads
(protocolManager.js lines 282-327). Null or empty list entries are modelled
as none and pushed through to keep in counts similar to out counts; the
decryptOne argument stands for this.payloadByDecryptingPayload. With the
throws flag, the first per-item error escapes; otherwise it is contained as
an error-marked payload and the loop continues. -/
def payloadsByDecryptingPayloads
    (decryptOne : PurePayload → Except String PurePayload)
    (payloads : List (Option PurePayload)) (throwsFlag : Bool) :
    Except String (List (Option PurePayload)) :=
  match payloads with
  | [] => .ok []
  | none :: rest => do
    let tail ← payloadsByDecryptingPayloads decryptOne rest throwsFlag
    .ok (none :: tail)
  | some p :: rest =>
    if isContentlessDeleted p then do
      let tail ← payloadsByDecryptingPayloads decryptOne rest throwsFlag
      .ok (some p :: tail)
    else if !(contentIsString p) then do
      let tail ← payloadsByDecryptingPayloads decryptOne rest throwsFlag
      .ok (some p :: tail)
    else
      match decryptOne p with
      | .ok d => do
        let tail ← payloadsByDecryptingPayloads decryptOne rest throwsFlag
        .ok (some d :: tail)
      | .error e =>
        if throwsFlag then .error e
        else do
          let tail ← payloadsByDecryptingPayloads decryptOne rest throwsFlag
          .ok (some (markErrorDecrypting p) :: tail)

end SNProtocolManager

/-- A live item as seen by the model manager accessors used here: its dummy
placeholder flag, tombstone flag, uuid, and server timestamp. -/
structure SNItem where
  dummy : Bool := false
  deleted : Bool := false
  updated_at : Nat := 0
  uuid : String := ""
deriving DecidableEq, Repr

/-- Modelled from the spec: SFItem.updatedAtTimestamp (models/core/item, not
part of the sources) reads the millisecond timestamp of updated_at; the
integrity hash of section 6 joins these values. -/
def SNItem.updatedAtTimestamp (i : SNItem) : Nat := i.updated_at

/-- Modelled from the spec: modelManager.nonDeletedItems (the model manager
is not part of the sources) - the non-deleted, non-dummy items, the set the
integrity hash of section 6 is computed over. -/
def nonDeletedItems (items : List SNItem) : List SNItem :=
  items.filter (fun i => !i.dummy && !i.deleted)

/-- Modelled from the spec: modelManager.allNondummyItems (the model manager
is not part of the sources) - every item that is not a dummy placeholder,
deleted or not. -/
def allNondummyItems (items : List SNItem) : List SNItem :=
  items.filter (fun i => !i.dummy)

/-- The comparator (a, b) => b.updated_at - a.updated_at passed to
Array.prototype.sort: a precedes b when its timestamp is at least b's, giving
updated_at descending order. -/
def itemGE (a b : SNItem) : Prop := b.updated_at ≤ a.updated_at

instance : DecidableRel itemGE := fun a b => Nat.decLe b.updated_at a.updated_at

instance : IsTotal SNItem itemGE := ⟨fun a b => Nat.le_total b.updated_at a.updated_at⟩

instance : IsTrans SNItem itemGE := ⟨fun _ _ _ h1 h2 => Nat.le_trans h2 h1⟩

/-- Embedding of the Array.prototype.sort call with the descending
updated_at comparator. -/
def sortItemsDesc (items : List SNItem) : List SNItem :=
  List.insertionSort itemGE items

/-- The joined dates string: updatedAtTimestamp values joined with a comma. -/
def joinedTimestamps (items : List SNItem) : String :=
  String.intercalate "," (items.map (fun i => toString i.updatedAtTimestamp))

namespace SNSyncManager

/-- Embedding of SNSyncManager.computeDataIntegrityHash (sync_manager.js
lines 648-660): the digest of the joined updated_at timestamps of
modelManager.nonDeletedItems sorted descending. The sha256 collaborator is
external and passed in. -/
def computeDataIntegrityHash (sha256 : String → String) (items : List SNItem) : String :=
  sha256 (joinedTimestamps (sortItemsDesc (nonDeletedItems items)))

end SNSyncManager

namespace SNProtocolManager

/-- Embedding of SNProtocolManager.computeDataIntegrityHash
(protocolManager.js lines 381-394): the digest of the joined updated_at
timestamps of modelManager.allNondummyItems sorted descending - note the
deleted items are not filtered out here, unlike the sync manager version. -/
def computeDataIntegrityHash (sha256 : String → String) (items : List SNItem) : String :=
  sha256 (joinedTimestamps (sortItemsDesc (allNondummyItems items)))

end SNProtocolManager

/-- Modelled from the spec: subtractFromArray (lib/utils, not part of the
sources) removes each element of the second list from the first, first
occurrence each, mutating the array in place; modelled functionally. -/
def subtractFromArray {α : Type} [DecidableEq α] (arr toRemove : List α) : List α :=
  toRemove.foldl (fun acc x => acc.erase x) arr

/-- DEFAULT_UP_DOWN_LIMIT from sync/constants (not part of the sources):
150 per the operation-loop description of section 4.8. -/
def DEFAULT_UP_DOWN_LIMIT : Nat := 150

/-- One raw server response to a sync round, as consumed by the operation. -/
structure SyncResponse where
  lastSyncToken : Option String := none
  paginationToken : Option String := none
deriving DecidableEq, Repr

/-- JavaScript truthiness of an optional token string: undefined, null and
the empty string are falsy. -/
def tokenTruthy : Option String → Bool
  | none => false
  | some s => !(s == "")

/-- State of an AccountSyncOperation (operation.js): the original payloads,
the still-pending payloads, sync and pagination tokens, accumulated
responses, and the cancellation flags. The field spellings cancleled and
cancelable follow the source. -/
structure OpState (α : Type) where
  payloads : List α
  pendingPayloads : List α
  lastSyncToken : Option String := none
  paginationToken : Option String := none
  checkIntegrity : Bool := false
  responses : List SyncResponse := []
  running : Bool := false
  cancleled : Bool := false
  cancelable : Bool := false
deriving DecidableEq, Repr

namespace AccountSyncOperation

/-- The AccountSyncOperation constructor: payloads and pendingPayloads start
as the same list. -/
def mkOperation {α : Type} (payloads : List α) (lastSyncToken paginationToken : Option String)
    (checkIntegrity : Bool) : OpState α :=
  { payloads := payloads
    pendingPayloads := payloads
    lastSyncToken := lastSyncToken
    paginationToken := paginationToken
    checkIntegrity := checkIntegrity }

/-- Embedding of the upLimit getter: DEFAULT_UP_DOWN_LIMIT. -/
def upLimit : Nat := DEFAULT_UP_DOWN_LIMIT

/-- Embedding of AccountSyncOperation.popPayloads: slice the first count
pending payloads and subtract exactly those from pendingPayloads. -/
def popPayloads {α : Type} [DecidableEq α] (s : OpState α) (count : Nat) :
    List α × OpState α :=
  let payloads := s.pendingPayloads.take count
  (payloads, { s with pendingPayloads := subtractFromArray s.pendingPayloads payloads })

/-- Embedding of lockCancelation (operation.js line 91): bracket entry before
the HTTP round. -/
def lockCancelation {α : Type} (s : OpState α) : OpState α :=
  { s with cancelable := false }

/-- Embedding of unlockCancelation (operation.js line 95): bracket exit after
the HTTP round. -/
def unlockCancelation {α : Type} (s : OpState α) : OpState α :=
  { s with cancelable := true }

/-- Embedding of AccountSyncOperation.tryCancel (operation.js lines 115-122)
exactly as written: when the operation is NOT cancelable it sets cancleled
and returns true, and when it IS cancelable it returns false leaving the
state untouched. -/
def tryCancel {α : Type} (s : OpState α) : Bool × OpState α :=
  if !s.cancelable then (true, { s with cancleled := true })
  else (false, s)

/-- The needsMoreSync condition of run: pending payloads remain or the
(truthy) pagination token carried over from the response. -/
def needsMoreSync {α : Type} (s : OpState α) : Bool :=
  !s.pendingPayloads.isEmpty || tokenTruthy s.paginationToken

/-- Embedding of AccountSyncOperation.run (operation.js lines 61-89). The
environment supplies the server response of each successive HTTP round; the
result pairs the final state with the trace of payload batches posted, one
batch per round performed. A canceled operation performs no round; recursion
continues while needsMoreSync holds and the environment has responses. -/
def run {α : Type} [DecidableEq α] (env : List SyncResponse) (s : OpState α) :
    OpState α × List (List α) :=
  match env with
  | [] => (s, [])
  | response :: rest =>
    if s.cancleled then (s, [])
    else
      let s1 := { s with running := true }
      let pop := popPayloads s1 upLimit
      let posted := pop.1
      let s2 := lockCancelation pop.2
      let s3 := unlockCancelation s2
      let s4 := { s3 with
        responses := s3.responses ++ [response]
        lastSyncToken := response.lastSyncToken
        paginationToken := response.paginationToken }
      if needsMoreSync s4 then
        let next := run rest s4
        (next.1, posted :: next.2)
      else
        ({ s4 with running := false }, [posted])

end AccountSyncOperation

/-- The sync manager state observed by the queue-serialization claims: the
two caller queues (callers modelled as numeric identifiers), the in-progress
flag of opStatus, and the database-loaded flag. -/
structure SyncManagerState where
  resolveQueue : List Nat := []
  spawnQueue : List Nat := []
  syncInProgress : Bool := false
  databaseLoaded : Bool := true
deriving DecidableEq, Repr

namespace SNSyncManager

/-- Embedding of the queueing branch of SNSyncManager.sync (sync_manager.js
lines 382-397) under the ResolveOnNext timing strategy: when a sync is in
progress or the database has not loaded, the caller is pushed onto
resolveQueue; the Bool reports whether the caller was enqueued. -/
def syncEnterQueued (s : SyncManagerState) (caller : Nat) : SyncManagerState × Bool :=
  if s.syncInProgress || !s.databaseLoaded then
    ({ s with resolveQueue := s.resolveQueue ++ [caller] }, true)
  else (s, false)

/-- Result of the completion epilogue of a sync round. -/
structure SyncCompletion where
  resolvedCallers : List Nat
  newResolveQueue : List Nat
  poppedSpawn : Bool
  schedulesFreshSync : Bool
deriving DecidableEq, Repr

/-- Embedding of the completion epilogue of SNSyncManager.sync
(sync_manager.js lines 450-457): resolve every callback captured in the
inTimeResolveQueue snapshot (taken at line 375, before the round began),
subtract exactly those from resolveQueue, then pop the spawn queue and, when
nothing was popped and resolveQueue is still non-empty, schedule a fresh
sync. -/
def completeSync (resolveQueueAtEnd inTimeResolveQueue spawnQueue : List Nat) :
    SyncCompletion :=
  let newQueue := subtractFromArray resolveQueueAtEnd inTimeResolveQueue
  let popped := !spawnQueue.isEmpty
  { resolvedCallers := inTimeResolveQueue
    newResolveQueue := newQueue
    poppedSpawn := popped
    schedulesFreshSync := !popped && !newQueue.isEmpty }

end SNSyncManager

/-! Concrete instances used by witnesses and counterexamples. -/

/-- Concrete raw payload used by the witness of claim C10. -/
def c10raw : RawPayload := { uuid := some "u" }

/-- Concrete constructor output for c10raw at clock value 77. -/
def c10out : PurePayload :=
  { fields := [PayloadField.Uuid]
    source := .Constructor
    uuid := some "u"
    content_type := none
    content := none
    deleted := none
    items_key_id := none
    enc_item_key := none
    created_at := some 77
    updated_at := some 0
    dirtiedDate := none
    dirty := none
    errorDecrypting := none
    waitingForKey := none
    errorDecryptingValueChanged := none
    lastSyncBegan := none
    lastSyncEnd := none
    auth_hash := none
    format := .Deleted
    version := none }

/-- Concrete constructor output used by the witness of claim C5. -/
def c5encOut : PurePayload :=
  { fields := [PayloadField.Uuid, PayloadField.Content]
    source := .Constructor
    uuid := some "u"
    content_type := none
    content := some (.str "004:c")
    deleted := none
    items_key_id := none
    enc_item_key := none
    created_at := some 0
    updated_at := some 0
    dirtiedDate := none
    dirty := none
    errorDecrypting := none
    waitingForKey := none
    errorDecryptingValueChanged := none
    lastSyncBegan := none
    lastSyncEnd := none
    auth_hash := none
    format := .EncryptedString
    version := some "004" }

/-- Concrete constructed payload used by the witness of claim C9. -/
def c9pay : PurePayload :=
  { fields := [PayloadField.Uuid, PayloadField.Content, PayloadField.ErrorDecrypting,
      PayloadField.WaitingForKey]
    source := .Constructor
    uuid := some "u"
    content_type := some "Note"
    content := some (.str "003:n:c:a")
    deleted := none
    items_key_id := none
    enc_item_key := some "003:k"
    created_at := some 10
    updated_at := some 20
    dirtiedDate := none
    dirty := some true
    errorDecrypting := none
    waitingForKey := none
    errorDecryptingValueChanged := none
    lastSyncBegan := none
    lastSyncEnd := none
    auth_hash := none
    format := .EncryptedString
    version := some "003" }

/-- Concrete operation state used by the claim C4 evaluation. -/
def c4BaseOp : OpState Nat := AccountSyncOperation.mkOperation [1, 2] none none false

/-- Concrete items used by the claim C2 witness. -/
def c2i1 : SNItem := { updated_at := 7, uuid := "x" }

/-- Concrete deleted item used by the claim C2 witness. -/
def c2i2 : SNItem := { deleted := true, updated_at := 9, uuid := "y" }

/-- Concrete item used by the claim C2 witness. -/
def c2i3 : SNItem := { updated_at := 3, uuid := "z" }

/-- Concrete deleted, non-dummy item refuting claim C2 as stated. -/
def c2DeletedItem : SNItem := { dummy := false, deleted := true, updated_at := 5, uuid := "a" }

/-- The operation state reached after one HTTP round of run: the first
upLimit pending payloads removed, the cancelation bracket passed, the
response recorded and its tokens adopted. -/
def roundState {α : Type} (r : SyncResponse) (s : OpState α) : OpState α :=
  { s with
    running := true
    pendingPayloads := s.pendingPayloads.drop AccountSyncOperation.upLimit
    cancelable := true
    responses := s.responses ++ [r]
    lastSyncToken := r.lastSyncToken
    paginationToken := r.paginationToken }

/-- Concrete operation used by the claim C6 witness: no pending payloads,
with a first response that carries a pagination token forcing a second
round. -/
def c6op : OpState Nat := AccountSyncOperation.mkOperation [] none none false

/-- First response of the claim C6 witness, carrying a pagination token. -/
def c6resp1 : SyncResponse := { paginationToken := some "t" }

/-- Second response of the claim C6 witness. -/
def c6resp2 : SyncResponse := { }

/-- The concrete crypto collaborators of the claim C1 witness and
counterexample. -/
def c1crypto : CryptoModel :=
  { sha256 := id
    base64 := id
    encryptBlob := fun _ => "blob"
    jsonEncode := fun _ => "json" }

/-- Concrete decrypted payload used by the claim C1 witness and
counterexample. -/
def c1pay : PurePayload :=
  { fields := [PayloadField.Uuid, PayloadField.Content]
    source := .Constructor
    uuid := some "u"
    content_type := some "Note"
    content := some (.obj { version := some "004", references := some [] })
    deleted := none
    items_key_id := none
    enc_item_key := none
    created_at := some 0
    updated_at := some 0
    dirtiedDate := none
    dirty := none
    errorDecrypting := none
    waitingForKey := none
    errorDecryptingValueChanged := none
    lastSyncBegan := none
    lastSyncEnd := none
    auth_hash := none
    format := .DecryptedBareObject
    version := some "004" }

/-- Concrete items-key used by the claim C1 witness. -/
def c1key : EncryptionKey := { version := "004", uuid := some "kid", keyMaterial := "km" }

/-- Per-element description of the bulk-decrypt loop: null entries and
contentless tombstones pass through, non-string content passes through, a
successful decrypt replaces the element, and a failing decrypt yields the
error-marked payload. -/
def decryptLoopElem (decryptOne : PurePayload → Except String PurePayload) :
    Option PurePayload → Option PurePayload
  | none => none
  | some p =>
    if SNProtocolManager.isContentlessDeleted p then some p
    else if !(SNProtocolManager.contentIsString p) then some p
    else match decryptOne p with
      | .ok d => some d
      | .error _ => some (SNProtocolManager.markErrorDecrypting p)

/-- The per-item error, if any, that the bulk-decrypt loop encounters at an
element: none for pass-throughs and successful decrypts. -/
def elemThrows (decryptOne : PurePayload → Except String PurePayload) :
    Option PurePayload → Option String
  | none => none
  | some p =>
    if SNProtocolManager.isContentlessDeleted p then none
    else if !(SNProtocolManager.contentIsString p) then none
    else match decryptOne p with
      | .ok _ => none
      | .error e => some e

/-- Decrypt routine of the claim C3 witness: fails on every payload. -/
def c3d : PurePayload → Except String PurePayload := fun _ => .error "boom"

/-- Concrete encrypted payload used by the claim C3 witness. -/
def c3p : PurePayload :=
  { fields := [PayloadField.Uuid, PayloadField.Content]
    source := .Constructor
    uuid := some "w"
    content_type := some "Note"
    content := some (.str "002:x:y:z")
    deleted := none
    items_key_id := none
    enc_item_key := some "002:k"
    created_at := some 1
    updated_at := some 2
    dirtiedDate := none
    dirty := none
    errorDecrypting := none
    waitingForKey := none
    errorDecryptingValueChanged := none
    lastSyncBegan := none
    lastSyncEnd := none
    auth_hash := none
    format := .EncryptedString
    version := some "002" }

/-! Helper lemmas shared by the claim theorems. -/

theorem subtractFromArray_append {α : Type} [DecidableEq α] (s d : List α) :
    subtractFromArray (s ++ d) s = d := by
  induction s with
  | nil => simp [subtractFromArray]
  | cons x xs ih =>
    show List.foldl (fun acc y => acc.erase y) (((x :: xs) ++ d).erase x) xs = d
    rw [List.cons_append, List.erase_cons_head]
    exact ih

theorem subtractFromArray_take {α : Type} [DecidableEq α] (n : Nat) (l : List α) :
    subtractFromArray l (l.take n) = l.drop n := by
  have h := subtractFromArray_append (l.take n) (l.drop n)
  rw [List.take_append_drop n l] at h
  exact h

theorem notPrefix000 (c : Char) (t : List Char) (h : (('0' : Char) == c) = false) :
    List.isPrefixOf ['0', '0', '0'] ('0' :: '0' :: c :: t) = false := by
  simp [List.isPrefixOf, h]

theorem strStartsWith_versioned_false (v r : String) (c : Char) (cs : List Char)
    (hv : v.data = '0' :: '0' :: c :: cs) (hc : (('0' : Char) == c) = false) :
    strStartsWith (v ++ r) versionBase64Decrypted = false := by
  unfold strStartsWith versionBase64Decrypted
  rw [String.data_append, hv]
  exact notPrefix000 c (cs ++ r.data) hc

theorem versioned_ne_empty (v r : String) (c : Char) (cs : List Char)
    (hv : v.data = '0' :: '0' :: c :: cs) : (v ++ r) ≠ "" := by
  intro h
  have hdata := congrArg String.data h
  rw [String.data_append, hv] at hdata
  simp at hdata

theorem encStr_normalized (v r : String) (c : Char) (cs : List Char)
    (hv : v.data = '0' :: '0' :: c :: cs) (hc : (('0' : Char) == c) = false) :
    normalizeContent (some (.str (v ++ r))) = some (.str (v ++ r))
    ∧ formatForContent (some (.str (v ++ r))) = .EncryptedString := by
  have hne := versioned_ne_empty v r c cs hv
  have hpre := strStartsWith_versioned_false v r c cs hv hc
  constructor
  · simp [normalizeContent, hne]
  · simp [formatForContent, hpre]

theorem joinedTimestamps_eq_of_perm_of_sorted {l m : List SNItem}
    (hp : l.Perm m) (hl : l.Pairwise itemGE) (hm : m.Pairwise itemGE) :
    joinedTimestamps l = joinedTimestamps m := by
  have hkey : l.map SNItem.updated_at = m.map SNItem.updated_at := by
    haveI : IsAntisymm Nat (fun a b : Nat => b ≤ a) :=
      ⟨fun a b h1 h2 => Nat.le_antisymm h2 h1⟩
    refine List.eq_of_perm_of_sorted (r := fun a b : Nat => b ≤ a) (hp.map _) ?_ ?_
    · exact (List.pairwise_map).mpr hl
    · exact (List.pairwise_map).mpr hm
  unfold joinedTimestamps
  have hl2 : l.map (fun i => toString i.updatedAtTimestamp)
      = (l.map SNItem.updated_at).map toString := by
    simp [List.map_map, SNItem.updatedAtTimestamp, Function.comp]
  have hm2 : m.map (fun i => toString i.updatedAtTimestamp)
      = (m.map SNItem.updated_at).map toString := by
    simp [List.map_map, SNItem.updatedAtTimestamp, Function.comp]
  rw [hl2, hm2, hkey]

theorem run_trace_ne_nil {α : Type} [DecidableEq α] (r : SyncResponse)
    (rest : List SyncResponse) (s : OpState α) (h : s.cancleled = false) :
    (AccountSyncOperation.run (r :: rest) s).2 ≠ [] := by
  unfold AccountSyncOperation.run
  rw [h]
  simp only [Bool.false_eq_true, if_false]
  split <;> simp

/-! Claim theorems. -/

/-- Claim C10: for every raw input, a constructed PurePayload always has
defined timestamps - a missing created_at falls back to the construction
time, a missing updated_at falls back to the epoch, and a present value is
kept; no constructed payload carries an undefined created_at or
updated_at. -/
theorem claim_C10_constructor_timestamp_defaults (raw : RawPayload)
    (fieldsArg : Option (List PayloadField)) (sourceArg : Option PayloadSource)
    (now : JsDate) (q : PurePayload)
    (h : PurePayload.construct raw fieldsArg sourceArg now = .ok q) :
    q.created_at.isSome = true ∧ q.updated_at.isSome = true
    ∧ (raw.created_at = none → q.created_at = some now)
    ∧ (raw.created_at.isSome = true → q.created_at = raw.created_at)
    ∧ (raw.updated_at = none → q.updated_at = some 0)
    ∧ (raw.updated_at.isSome = true → q.updated_at = raw.updated_at) := by
  simp only [PurePayload.construct] at h
  split at h
  · exact absurd h (by simp)
  · simp only [Except.ok.injEq] at h
    subst h
    refine ⟨rfl, rfl, ?_, ?_, ?_, ?_⟩
    · intro hc; simp [hc]
    · intro hc
      cases hcc : raw.created_at with
      | none => rw [hcc] at hc; cases hc
      | some d => simp [hcc]
    · intro hu; simp [hu]
    · intro hu
      cases huu : raw.updated_at with
      | none => rw [huu] at hu; cases hu
      | some d => simp [huu]

/-- Witness for claim C10 at a concrete raw payload lacking both
timestamps. -/
theorem claim_C10_witness :
    PurePayload.construct c10raw none none 77 = .ok c10out
    ∧ c10out.created_at = some 77 ∧ c10out.updated_at = some 0 := by
  have h : PurePayload.construct c10raw none none 77 = .ok c10out := by decide
  have main := claim_C10_constructor_timestamp_defaults c10raw none none 77 c10out h
  exact ⟨h, main.2.2.1 rfl, main.2.2.2.2.1 rfl⟩

/-- Claim C5 (amended): the constructor derives format and version
consistently from content, with the JavaScript truthiness caveat that an
empty content string is treated like absent content: nonempty string content
not starting with the 000 tag gives EncryptedString with version the first
three characters; nonempty string content starting with 000 gives
DecryptedBase64String; object content gives DecryptedBareObject with version
taken from content.version; absent or empty-string content gives Deleted.
Immutability is structural in the embedding: a payload is a pure value. -/
theorem claim_C5_constructor_format_version (raw : RawPayload)
    (fieldsArg : Option (List PayloadField)) (sourceArg : Option PayloadSource)
    (now : JsDate) (q : PurePayload)
    (h : PurePayload.construct raw fieldsArg sourceArg now = .ok q) :
    (∀ s, raw.content = some (.str s) → s ≠ "" →
      strStartsWith s versionBase64Decrypted = false →
      q.format = .EncryptedString ∧ q.version = some (strTake s versionLength))
    ∧ (∀ s, raw.content = some (.str s) → s ≠ "" →
      strStartsWith s versionBase64Decrypted = true →
      q.format = .DecryptedBase64String ∧ q.version = some (strTake s versionLength))
    ∧ (∀ o, raw.content = some (.obj o) →
      q.format = .DecryptedBareObject ∧ q.version = o.version)
    ∧ ((raw.content = none ∨ raw.content = some (.str "")) →
      q.format = .Deleted ∧ q.version = none) := by
  simp only [PurePayload.construct] at h
  split at h
  · exact absurd h (by simp)
  · simp only [Except.ok.injEq] at h
    subst h
    refine ⟨?_, ?_, ?_, ?_⟩
    · intro s hc hne hpre
      simp [hc, normalizeContent, hne, formatForContent, versionForContent, hpre]
    · intro s hc hne hpre
      simp [hc, normalizeContent, hne, formatForContent, versionForContent, hpre]
    · intro o hc
      simp [hc, normalizeContent, formatForContent, versionForContent, FillItemContent]
    · intro hc
      rcases hc with hc | hc <;>
        simp [hc, normalizeContent, formatForContent, versionForContent]

/-- Counterexample for claim C5 as stated: the empty string is string content
that does not start with the 000 tag, yet the constructor yields format
Deleted, not EncryptedString, because an empty string is falsy in
JavaScript. -/
theorem claim_C5_counterexample :
    strStartsWith "" versionBase64Decrypted = false
    ∧ (PurePayload.construct { uuid := some "u", content := some (.str "") }
        none none 0).map (fun q => q.format) = .ok .Deleted
    ∧ PayloadFormat.Deleted ≠ PayloadFormat.EncryptedString := by decide

/-- Witness for claim C5 at concrete inputs covering all four content
shapes. -/
theorem claim_C5_witness :
    (PurePayload.construct { uuid := some "u", content := some (.str "004:c") }
        none none 0).map (fun q => (q.format, q.version))
      = .ok (PayloadFormat.EncryptedString, some "004") := by
  have h : PurePayload.construct { uuid := some "u", content := some (.str "004:c") }
      none none 0 = .ok c5encOut := by decide
  have main := claim_C5_constructor_format_version _ none none 0 c5encOut h
  have hfv := main.1 "004:c" rfl (by decide) (by decide)
  rw [h]
  show Except.ok (c5encOut.format, c5encOut.version) = _
  rw [hfv.1, hfv.2]
  decide

/-- Claim C8: ejected() emits exactly the fields of p.fields minus the
non-persistable set, additionally omitting the optional fields Deleted and
auth_hash when null or undefined, each keeping the value it has on the
payload. -/
theorem claim_C8_ejected_projection (p : PurePayload) :
    PurePayload.ejected p
      = (p.fields.filter (fun f =>
          !(PurePayload.nonRequiredFields.contains f)
          && !((p.getField f).isNone && PurePayload.optionalFields.contains f))).map
          (fun f => (f, p.getField f)) := by
  show PurePayload.ejectedLoop p p.fields = _
  induction p.fields with
  | nil => rfl
  | cons f rest ih =>
    simp only [PurePayload.ejectedLoop]
    by_cases h1 : f ∈ PurePayload.nonRequiredFields
    · simp [h1, ih, List.filter_cons]
    · by_cases h3 : p.getField f = none
      · by_cases h4 : f ∈ PurePayload.optionalFields
        · simp [h1, h3, h4, ih, List.filter_cons]
        · simp [h1, h3, h4, ih, List.filter_cons]
      · have h3b : (p.getField f).isSome = true := Option.isSome_iff_ne_none.mpr h3
        simp [h1, h3, h3b, ih, List.filter_cons]

/-- Claim C9: when no decryption key is supplied and the key manager lookup
also returns none, payloadByDecryptingPayload returns a payload marked both
errorDecrypting and waitingForKey, every other slot carried over unchanged
from the input. The hypotheses express that the input is a constructed
payload (normalized content, derived format and version, and the two flag
fields already declared in its fields list). -/
theorem claim_C9_decrypt_without_key
    (operatorDecrypt : PurePayload → EncryptionKey → Except String PayloadOverride)
    (p : PurePayload)
    (h1 : normalizeContent p.content = p.content)
    (h2 : p.format = formatForContent p.content)
    (h3 : p.version = versionForContent p.content)
    (h4 : PayloadField.ErrorDecrypting ∈ p.fields)
    (h5 : PayloadField.WaitingForKey ∈ p.fields) :
    SNProtocolManager.payloadByDecryptingPayload operatorDecrypt none p none
      = .ok { p with errorDecrypting := some true, waitingForKey := some true } := by
  show Except.ok (payloadWithOverride p
    { waitingForKey := some true, errorDecrypting := some true }) = _
  unfold payloadWithOverride overrideKeys
  simp [h1, ← h2, ← h3, h4, h5]

/-- Witness for claim C9 at a concrete encrypted payload. -/
theorem claim_C9_witness :
    SNProtocolManager.payloadByDecryptingPayload (fun _ _ => .error "unused") none c9pay none
      = .ok { c9pay with errorDecrypting := some true, waitingForKey := some true } :=
  claim_C9_decrypt_without_key (fun _ _ => .error "unused") c9pay
    (by decide) (by decide) (by decide) (by decide) (by decide)

/-- Claim C4 is a code bug: evaluating the embedded tryCancel at the two
phases shows the implementation inverts the claimed bracket semantics. While
an HTTP round is in flight (after lockCancelation) tryCancel cancels the
operation and returns true, although the claim requires it to be rejected
with false; between rounds (after unlockCancelation) it returns false and
cancels nothing, although the claim requires it to take effect with true.
The final conjunct confirms that a cancleled operation performs no further
rounds. -/
theorem claim_C4_tryCancel_inverted :
    (AccountSyncOperation.tryCancel (AccountSyncOperation.lockCancelation c4BaseOp)).1 = true
    ∧ (AccountSyncOperation.tryCancel
        (AccountSyncOperation.lockCancelation c4BaseOp)).2.cancleled = true
    ∧ (AccountSyncOperation.tryCancel (AccountSyncOperation.unlockCancelation c4BaseOp)).1 = false
    ∧ (AccountSyncOperation.tryCancel
        (AccountSyncOperation.unlockCancelation c4BaseOp)).2.cancleled = false
    ∧ AccountSyncOperation.run [{ lastSyncToken := none, paginationToken := none }]
        (AccountSyncOperation.tryCancel (AccountSyncOperation.lockCancelation c4BaseOp)).2
      = ((AccountSyncOperation.tryCancel (AccountSyncOperation.lockCancelation c4BaseOp)).2, []) := by
  decide

/-- Claim C2 (amended): the sync manager's computeDataIntegrityHash is the
digest of the comma-joined updatedAtTimestamp values of exactly the
non-deleted, non-dummy items in any updated_at-descending order, but the
protocol manager's computeDataIntegrityHash digests all non-dummy items,
deleted ones included. The lists l1 and l2 stand for arbitrary descending
arrangements of the two item sets. -/
theorem claim_C2_integrity_hash (sha256 : String → String)
    (items l1 l2 : List SNItem)
    (hp1 : l1.Perm (nonDeletedItems items)) (hs1 : l1.Pairwise itemGE)
    (hp2 : l2.Perm (allNondummyItems items)) (hs2 : l2.Pairwise itemGE) :
    SNSyncManager.computeDataIntegrityHash sha256 items = sha256 (joinedTimestamps l1)
    ∧ SNProtocolManager.computeDataIntegrityHash sha256 items
      = sha256 (joinedTimestamps l2) := by
  constructor
  · unfold SNSyncManager.computeDataIntegrityHash
    congr 1
    apply joinedTimestamps_eq_of_perm_of_sorted
    · exact (List.perm_insertionSort itemGE _).trans hp1.symm
    · exact List.sorted_insertionSort itemGE _
    · exact hs1
  · unfold SNProtocolManager.computeDataIntegrityHash
    congr 1
    apply joinedTimestamps_eq_of_perm_of_sorted
    · exact (List.perm_insertionSort itemGE _).trans hp2.symm
    · exact List.sorted_insertionSort itemGE _
    · exact hs2

/-- Witness for claim C2 on a concrete collection containing a deleted
item. -/
theorem claim_C2_witness :
    SNSyncManager.computeDataIntegrityHash id [c2i1, c2i2, c2i3]
      = id (joinedTimestamps [c2i1, c2i3])
    ∧ SNProtocolManager.computeDataIntegrityHash id [c2i1, c2i2, c2i3]
      = id (joinedTimestamps [c2i2, c2i1, c2i3]) :=
  claim_C2_integrity_hash id [c2i1, c2i2, c2i3] [c2i1, c2i3] [c2i2, c2i1, c2i3]
    (by decide) (by decide) (by decide) (by decide)

/-- Counterexample for claim C2 as stated: with the identity in place of the
external SHA-256 collaborator, the protocol manager's
computeDataIntegrityHash over a collection holding one deleted non-dummy
item digests the string 5, not the digest of the comma-joined timestamps of
exactly the non-deleted non-dummy items (the empty string). -/
theorem claim_C2_counterexample :
    SNProtocolManager.computeDataIntegrityHash id [c2DeletedItem]
      ≠ id (joinedTimestamps (sortItemsDesc (nonDeletedItems [c2DeletedItem]))) := by
  decide

/-- One unfolding of the run loop at a non-canceled state: the round posts
the first upLimit pending payloads, leaves the rest pending, adopts the
response tokens, and recurses exactly when needsMoreSync holds. -/
theorem run_cons_eq {α : Type} [DecidableEq α] (r : SyncResponse)
    (rest : List SyncResponse) (s : OpState α) (hc : s.cancleled = false) :
    AccountSyncOperation.run (r :: rest) s =
      (if AccountSyncOperation.needsMoreSync (roundState r s) then
        ((AccountSyncOperation.run rest (roundState r s)).1,
          s.pendingPayloads.take AccountSyncOperation.upLimit
            :: (AccountSyncOperation.run rest (roundState r s)).2)
      else ({ roundState r s with running := false },
        [s.pendingPayloads.take AccountSyncOperation.upLimit])) := by
  have hpop : subtractFromArray s.pendingPayloads
      (s.pendingPayloads.take AccountSyncOperation.upLimit)
      = s.pendingPayloads.drop AccountSyncOperation.upLimit := subtractFromArray_take _ _
  conv_lhs => rw [AccountSyncOperation.run.eq_def]
  simp only [AccountSyncOperation.popPayloads, AccountSyncOperation.lockCancelation,
    AccountSyncOperation.unlockCancelation, hpop, hc, Bool.false_eq_true, if_false, roundState]

/-- Claim C6: every run round posts at most upLimit (150) payloads taken
from the front of pendingPayloads, removes exactly those from
pendingPayloads, and the operation performs another round exactly when
payloads remain pending or the response carried a (truthy) pagination
token. -/
theorem claim_C6_operation_rounds {α : Type} [DecidableEq α] (s : OpState α)
    (r : SyncResponse) (rest : List SyncResponse)
    (hc : s.cancleled = false) (hr : rest ≠ []) :
    (AccountSyncOperation.run (r :: rest) s).2.head?
        = some (s.pendingPayloads.take AccountSyncOperation.upLimit)
    ∧ (s.pendingPayloads.take AccountSyncOperation.upLimit).length ≤ 150
    ∧ AccountSyncOperation.upLimit = 150
    ∧ s.pendingPayloads.take AccountSyncOperation.upLimit
        ++ (roundState r s).pendingPayloads = s.pendingPayloads
    ∧ (2 ≤ (AccountSyncOperation.run (r :: rest) s).2.length
        ↔ ((roundState r s).pendingPayloads ≠ []
            ∨ tokenTruthy r.paginationToken = true)) := by
  have hpend : (roundState r s).pendingPayloads
      = s.pendingPayloads.drop AccountSyncOperation.upLimit := rfl
  have hcanc : (roundState r s).cancleled = false := hc
  rw [run_cons_eq r rest s hc]
  by_cases hn : AccountSyncOperation.needsMoreSync (roundState r s)
  · cases rest with
    | nil => exact absurd rfl hr
    | cons r2 rest2 =>
      have htrace := run_trace_ne_nil r2 rest2 (roundState r s) hcanc
      refine ⟨by simp [hn], ?_, rfl, ?_, ?_⟩
      · calc (s.pendingPayloads.take AccountSyncOperation.upLimit).length
            ≤ AccountSyncOperation.upLimit := by
              simp [List.length_take_le]
          _ = 150 := rfl
      · rw [hpend]; exact List.take_append_drop _ _
      · constructor
        · intro _
          have hn2 := hn
          unfold AccountSyncOperation.needsMoreSync at hn2
          rcases Bool.or_eq_true_iff.mp hn2 with h | h
          · left
            rw [hpend] at h ⊢
            simpa using h
          · right; exact h
        · intro _
          simp only [hn, if_true, List.length_cons]
          have : 1 ≤ (AccountSyncOperation.run (r2 :: rest2) (roundState r s)).2.length :=
            Nat.one_le_iff_ne_zero.mpr (fun hz => htrace (List.eq_nil_of_length_eq_zero hz))
          omega
  · refine ⟨by simp [hn], ?_, rfl, ?_, ?_⟩
    · calc (s.pendingPayloads.take AccountSyncOperation.upLimit).length
          ≤ AccountSyncOperation.upLimit := by
            simp [List.length_take_le]
        _ = 150 := rfl
    · rw [hpend]; exact List.take_append_drop _ _
    · constructor
      · intro habs
        simp [hn] at habs
      · intro hside
        exfalso
        apply hn
        unfold AccountSyncOperation.needsMoreSync
        rcases hside with h | h
        · apply Bool.or_eq_true_iff.mpr
          left
          rw [hpend] at h ⊢
          simpa using h
        · exact Bool.or_eq_true_iff.mpr (Or.inr h)

/-- Claim C7: under the ResolveOnNext strategy a caller arriving while a
sync is in progress (or before the database loads) is enqueued into
resolveQueue; the completing sync resolves exactly the snapshot captured
before the round began, removes exactly those entries from the queue,
leaves the callers enqueued during the round unresolved (they wait for a
later round), and schedules a fresh sync exactly when no spawn-queue entry
was popped and the queue is still non-empty. -/
theorem claim_C7_resolve_on_next (s : SyncManagerState) (caller : Nat)
    (snapshot during spawnQ : List Nat)
    (hbusy : s.syncInProgress = true ∨ s.databaseLoaded = false)
    (hfresh : ∀ c ∈ during, c ∉ snapshot) :
    ((SNSyncManager.syncEnterQueued s caller).2 = true
      ∧ (SNSyncManager.syncEnterQueued s caller).1.resolveQueue
          = s.resolveQueue ++ [caller])
    ∧ (SNSyncManager.completeSync (snapshot ++ during) snapshot spawnQ).resolvedCallers
        = snapshot
    ∧ (SNSyncManager.completeSync (snapshot ++ during) snapshot spawnQ).newResolveQueue
        = during
    ∧ (∀ c ∈ during,
        c ∉ (SNSyncManager.completeSync (snapshot ++ during) snapshot spawnQ).resolvedCallers)
    ∧ ((SNSyncManager.completeSync (snapshot ++ during) snapshot spawnQ).schedulesFreshSync
          = true
        ↔ (spawnQ = [] ∧ during ≠ [])) := by
  refine ⟨?_, rfl, ?_, ?_, ?_⟩
  · unfold SNSyncManager.syncEnterQueued
    rcases hbusy with h | h <;> simp [h]
  · exact subtractFromArray_append snapshot during
  · exact hfresh
  · unfold SNSyncManager.completeSync
    simp [subtractFromArray_append snapshot during, List.isEmpty_iff]

/-- Witness for claim C7 at a concrete busy state with callers enqueued
before and during the round. -/
theorem claim_C7_witness :
    ((SNSyncManager.syncEnterQueued { resolveQueue := [1], syncInProgress := true } 2).2 = true
      ∧ (SNSyncManager.syncEnterQueued
          { resolveQueue := [1], syncInProgress := true } 2).1.resolveQueue = [1] ++ [2])
    ∧ (SNSyncManager.completeSync ([1, 2] ++ [3]) [1, 2] []).resolvedCallers = [1, 2]
    ∧ (SNSyncManager.completeSync ([1, 2] ++ [3]) [1, 2] []).newResolveQueue = [3]
    ∧ 3 ∉ (SNSyncManager.completeSync ([1, 2] ++ [3]) [1, 2] []).resolvedCallers
    ∧ ((SNSyncManager.completeSync ([1, 2] ++ [3]) [1, 2] []).schedulesFreshSync = true
        ↔ ([] = ([] : List Nat) ∧ [3] ≠ ([] : List Nat))) := by
  have main := claim_C7_resolve_on_next { resolveQueue := [1], syncInProgress := true } 2
    [1, 2] [3] [] (Or.inl rfl) (by decide)
  exact ⟨main.1, main.2.1, main.2.2.1, main.2.2.2.1 3 (by decide), main.2.2.2.2⟩

/-- Witness for claim C6 at a concrete operation whose first response
carries a pagination token. -/
theorem claim_C6_witness :
    (AccountSyncOperation.run (c6resp1 :: [c6resp2]) c6op).2.head?
        = some (c6op.pendingPayloads.take AccountSyncOperation.upLimit)
    ∧ (c6op.pendingPayloads.take AccountSyncOperation.upLimit).length ≤ 150
    ∧ AccountSyncOperation.upLimit = 150
    ∧ c6op.pendingPayloads.take AccountSyncOperation.upLimit
        ++ (roundState c6resp1 c6op).pendingPayloads = c6op.pendingPayloads
    ∧ (2 ≤ (AccountSyncOperation.run (c6resp1 :: [c6resp2]) c6op).2.length
        ↔ ((roundState c6resp1 c6op).pendingPayloads ≠ []
            ∨ tokenTruthy c6resp1.paginationToken = true)) :=
  claim_C6_operation_rounds c6op c6resp1 [c6resp2] rfl (by decide)

/-- Claim C1 (amended): with a key supplied, the four encrypting intents
(Sync, LocalStorageEncrypted, FileEncrypted, LocalStoragePreferEncrypted)
produce a payload of format EncryptedString; with no key supplied and none
found by lookup, the decrypted intents (LocalStorageDecrypted,
FileDecrypted) produce a payload of format DecryptedBareObject for a
decrypted input payload, while every intent that requires encryption -
which per the specification includes Sync and LocalStoragePreferEncrypted -
fails with the missing-key error, so the no-key Sync row
(DecryptedBase64String) and no-key LocalStoragePreferEncrypted row
(DecryptedBareObject) of the intent table describe
payloadContentFormatForIntent but are unreachable through
payloadByEncryptingPayload. -/
theorem claim_C1_encrypt_intent_formats (crypto : CryptoModel) (p : PurePayload)
    (k : EncryptionKey) (o : ItemContent)
    (hv : k.version = "001" ∨ k.version = "002" ∨ k.version = "003" ∨ k.version = "004")
    (hcont : p.content = some (.obj o)) :
    (∀ intent, (intent = EncryptionIntent.Sync
        ∨ intent = EncryptionIntent.LocalStorageEncrypted
        ∨ intent = EncryptionIntent.FileEncrypted
        ∨ intent = EncryptionIntent.LocalStoragePreferEncrypted) →
      ∃ q, SNProtocolManager.payloadByEncryptingPayload crypto none p (some k) intent = .ok q
        ∧ q.format = .EncryptedString)
    ∧ (∀ intent, (intent = EncryptionIntent.LocalStorageDecrypted
        ∨ intent = EncryptionIntent.FileDecrypted) →
      ∃ q, SNProtocolManager.payloadByEncryptingPayload crypto none p none intent = .ok q
        ∧ q.format = .DecryptedBareObject)
    ∧ (∀ intent, intentRequiresEncryption intent = true →
      SNProtocolManager.payloadByEncryptingPayload crypto none p none intent
        = .error "Attempting to generate encrypted payload with no key.") := by
  have hfmt : ∀ r : String,
      formatForContent (normalizeContent (some (.str (k.version ++ ":" ++ r))))
        = .EncryptedString := by
    intro r
    rcases hv with h | h | h | h <;> rw [h]
    · obtain ⟨hn, hf⟩ := encStr_normalized ("001" ++ ":") r '1' [':'] (by decide) (by decide)
      rw [hn]; exact hf
    · obtain ⟨hn, hf⟩ := encStr_normalized ("002" ++ ":") r '2' [':'] (by decide) (by decide)
      rw [hn]; exact hf
    · obtain ⟨hn, hf⟩ := encStr_normalized ("003" ++ ":") r '3' [':'] (by decide) (by decide)
      rw [hn]; exact hf
    · obtain ⟨hn, hf⟩ := encStr_normalized ("004" ++ ":") r '4' [':'] (by decide) (by decide)
      rw [hn]; exact hf
  refine ⟨?_, ?_, ?_⟩
  · intro intent hi
    rcases hi with rfl | rfl | rfl | rfl <;> exact ⟨_, rfl, hfmt _⟩
  · intro intent hi
    rcases hi with rfl | rfl <;>
      refine ⟨_, rfl, ?_⟩ <;>
      simp [payloadWithOverride, hcont, normalizeContent, formatForContent]
  · intro intent hreq
    cases intent <;> first
      | rfl
      | exact absurd hreq (by decide)

/-- Witness for claim C1 at concrete inputs: a keyed Sync encryption yields
EncryptedString, a keyless FileDecrypted pass yields DecryptedBareObject,
and a keyless LocalStoragePreferEncrypted encryption fails with the
missing-key error. -/
theorem claim_C1_witness :
    (SNProtocolManager.payloadByEncryptingPayload c1crypto none c1pay (some c1key)
        EncryptionIntent.Sync).map (fun q => q.format) = .ok .EncryptedString
    ∧ (SNProtocolManager.payloadByEncryptingPayload c1crypto none c1pay none
        EncryptionIntent.FileDecrypted).map (fun q => q.format) = .ok .DecryptedBareObject
    ∧ SNProtocolManager.payloadByEncryptingPayload c1crypto none c1pay none
        EncryptionIntent.LocalStoragePreferEncrypted
      = .error "Attempting to generate encrypted payload with no key." := by
  have main := claim_C1_encrypt_intent_formats c1crypto c1pay c1key
    { version := some "004", references := some [] }
    (Or.inr (Or.inr (Or.inr rfl))) rfl
  refine ⟨?_, ?_, ?_⟩
  · obtain ⟨q, hq, hf⟩ := main.1 EncryptionIntent.Sync (Or.inl rfl)
    rw [hq, Except.map, hf]
  · obtain ⟨q, hq, hf⟩ := main.2.1 EncryptionIntent.FileDecrypted (Or.inr rfl)
    rw [hq, Except.map, hf]
  · exact main.2.2 EncryptionIntent.LocalStoragePreferEncrypted rfl

/-- Counterexample for claim C1 as stated: with no key supplied and none
found by lookup, intent Sync does not produce a DecryptedBase64String
payload as the intent table row claims for payloadByEncryptingPayload - the
call fails with the missing-key error, because Sync is an intent that
requires encryption. -/
theorem claim_C1_counterexample :
    SNProtocolManager.payloadByEncryptingPayload c1crypto none c1pay none
        EncryptionIntent.Sync
      = .error "Attempting to generate encrypted payload with no key." := rfl

theorem payloadsByDecryptingPayloads_no_throw
    (decryptOne : PurePayload → Except String PurePayload)
    (payloads : List (Option PurePayload)) :
    SNProtocolManager.payloadsByDecryptingPayloads decryptOne payloads false
      = .ok (payloads.map (decryptLoopElem decryptOne)) := by
  induction payloads with
  | nil => rfl
  | cons hd tl ih =>
    cases hd with
    | none =>
      simp only [SNProtocolManager.payloadsByDecryptingPayloads, ih, List.map_cons,
        decryptLoopElem]
      rfl
    | some p =>
      simp only [SNProtocolManager.payloadsByDecryptingPayloads, List.map_cons,
        decryptLoopElem]
      by_cases h1 : SNProtocolManager.isContentlessDeleted p = true
      · simp [h1, ih]; rfl
      · by_cases h2 : SNProtocolManager.contentIsString p = true
        · cases hd : decryptOne p with
          | ok d => simp [h1, h2, hd, ih]; rfl
          | error e => simp [h1, h2, hd, ih]; rfl
        · simp [h1, h2, ih]; rfl

theorem payloadsByDecryptingPayloads_throws
    (decryptOne : PurePayload → Except String PurePayload)
    (pre rest : List (Option PurePayload)) (p : PurePayload) (e : String)
    (hpre : ∀ q ∈ pre, elemThrows decryptOne q = none)
    (hp : elemThrows decryptOne (some p) = some e) :
    SNProtocolManager.payloadsByDecryptingPayloads decryptOne
        (pre ++ some p :: rest) true = .error e := by
  induction pre with
  | nil =>
    simp only [List.nil_append]
    simp only [elemThrows] at hp
    unfold SNProtocolManager.payloadsByDecryptingPayloads
    by_cases h1 : SNProtocolManager.isContentlessDeleted p = true
    · rw [if_pos h1] at hp; cases hp
    · rw [if_neg h1] at hp
      by_cases h2 : SNProtocolManager.contentIsString p = true
      · rw [if_neg (by simp [h2])] at hp
        cases hd : decryptOne p with
        | ok d => rw [hd] at hp; cases hp
        | error e2 =>
          rw [hd] at hp
          simp only [Option.some.injEq] at hp
          subst hp
          simp [h1, h2, hd]
      · rw [if_pos (by simp [h2])] at hp; cases hp
  | cons hd tl ih =>
    have hhd := hpre hd (List.mem_cons_self hd tl)
    have htl : ∀ q ∈ tl, elemThrows decryptOne q = none := by
      intro q hq; exact hpre q (List.mem_cons_of_mem hd hq)
    have ihx := ih htl
    cases hd with
    | none =>
      simp only [List.cons_append]
      unfold SNProtocolManager.payloadsByDecryptingPayloads
      rw [ihx]
      rfl
    | some p2 =>
      simp only [elemThrows] at hhd
      simp only [List.cons_append]
      unfold SNProtocolManager.payloadsByDecryptingPayloads
      by_cases h1 : SNProtocolManager.isContentlessDeleted p2 = true
      · simp only [h1, if_true]
        rw [ihx]; rfl
      · by_cases h2 : SNProtocolManager.contentIsString p2 = true
        · rw [if_neg h1] at hhd
          rw [if_neg (by simp [h2])] at hhd
          cases hd2 : decryptOne p2 with
          | ok d =>
            simp only [h1, Bool.false_eq_true, if_false, h2, Bool.not_true, if_false, hd2]
            rw [ihx]; rfl
          | error e2 => rw [hd2] at hhd; cases hhd
        · simp only [h1, Bool.false_eq_true, if_false, h2]
          rw [if_pos (by simp [h2])]
          rw [ihx]; rfl

/-- Claim C3: bulk decryption without the throws flag returns a list of the
same length whose i-th element derives from the i-th input (null entries,
contentless tombstones and non-string content pass through unchanged; a
per-item decryption failure yields the error-marked payload, whose
errorDecrypting is true and whose errorDecryptingValueChanged is the
negation of the input's errorDecrypting, without aborting the loop); with
the throws flag set the first per-item error is re-thrown instead. -/
theorem claim_C3_bulk_decrypt_containment
    (decryptOne : PurePayload → Except String PurePayload)
    (pre rest : List (Option PurePayload)) (p : PurePayload) (e : String)
    (hpre : ∀ q ∈ pre, elemThrows decryptOne q = none)
    (hp : elemThrows decryptOne (some p) = some e) :
    (∀ payloads, SNProtocolManager.payloadsByDecryptingPayloads decryptOne payloads false
        = .ok (payloads.map (decryptLoopElem decryptOne))
      ∧ (payloads.map (decryptLoopElem decryptOne)).length = payloads.length)
    ∧ (∀ q, (SNProtocolManager.markErrorDecrypting q).errorDecrypting = some true
        ∧ (SNProtocolManager.markErrorDecrypting q).errorDecryptingValueChanged
            = some (!(q.errorDecrypting.getD false)))
    ∧ SNProtocolManager.payloadsByDecryptingPayloads decryptOne
        (pre ++ some p :: rest) true = .error e := by
  refine ⟨?_, ?_, ?_⟩
  · intro payloads
    exact ⟨payloadsByDecryptingPayloads_no_throw decryptOne payloads,
      List.length_map payloads (decryptLoopElem decryptOne)⟩
  · intro q
    constructor <;> rfl
  · exact payloadsByDecryptingPayloads_throws decryptOne pre rest p e hpre hp

/-- Witness for claim C3 on a concrete two-element input whose decrypt
fails. -/
theorem claim_C3_witness :
    SNProtocolManager.payloadsByDecryptingPayloads c3d [none, some c3p] false
      = .ok ([none, some c3p].map (decryptLoopElem c3d))
    ∧ ([none, some c3p].map (decryptLoopElem c3d)).length = 2
    ∧ (SNProtocolManager.markErrorDecrypting c3p).errorDecrypting = some true
    ∧ (SNProtocolManager.markErrorDecrypting c3p).errorDecryptingValueChanged
        = some (!(c3p.errorDecrypting.getD false))
    ∧ SNProtocolManager.payloadsByDecryptingPayloads c3d ([none] ++ some c3p :: []) true
      = .error "boom" := by
  have main := claim_C3_bulk_decrypt_containment c3d [none] [] c3p "boom"
    (by intro q hq; rw [List.mem_singleton] at hq; subst hq; rfl) rfl
  exact ⟨(main.1 [none, some c3p]).1, (main.1 [none, some c3p]).2,
    (main.2.1 c3p).1, (main.2.1 c3p).2, main.2.2⟩
